import Mathlib

/-!
Shallow embedding of the `bath` environment-profile exporter (Rust).

The embedded code lives in `src/config.rs` (the `Entry` / `EnvProfile` data
model), `src/export.rs` (shell quoting, per-variable export statements and
full-profile aggregation) and `src/db.rs` / `src/tui/state.rs` (profile
renaming against the SQLite `profiles` table).

Rust `String`s become Lean `String`s, `Vec` becomes `List`, and the
`HashMap` + first-seen `order` vector used by `generate_full_export` is
modelled as a single insertion-ordered association list.
-/

namespace Bath

/-- Export operation mode (`OperationMode` in `src/export.rs`). -/
inductive OperationMode
  | Prepend
  | Append
  | Replace
deriving DecidableEq

/-- A `PATH` entry (`PathEntry` in `src/config.rs`). -/
structure PathEntry where
  path : String
  program : String
  version : String
deriving DecidableEq

/-- A profile entry (`Entry` in `src/config.rs`). `CustomScalar` carries
`name, value`; `CustomPart` carries `name, value, separator`. -/
inductive Entry
  | Path (pe : PathEntry)
  | CPath (s : String)
  | CInclude (s : String)
  | CPlusInclude (s : String)
  | OBJCInclude (s : String)
  | CPPFlag (s : String)
  | CFlag (s : String)
  | CXXFlag (s : String)
  | LDFlag (s : String)
  | LibraryPath (s : String)
  | LDLibraryPath (s : String)
  | LDRunPath (s : String)
  | RanLib (s : String)
  | CC (s : String)
  | CXX (s : String)
  | AR (s : String)
  | Strip (s : String)
  | GCCExecPref (s : String)
  | CollectGCCOptions (s : String)
  | Lang (s : String)
  | CustomScalar (name : String) (value : String)
  | CustomPart (name : String) (value : String) (separator : String)
deriving DecidableEq

/-- `Entry::var_name` from `src/config.rs`: the environment variable an entry
contributes to. (The `GCC_EXEC_PREFIX` constructor is spelled `GCCExecPref`
here; the variable name it maps to is unchanged.) -/
def Entry.var_name : Entry → String
  | Entry.Path _ => "PATH"
  | Entry.CPath _ => "CPATH"
  | Entry.CInclude _ => "C_INCLUDE_PATH"
  | Entry.CPlusInclude _ => "CPLUS_INCLUDE_PATH"
  | Entry.OBJCInclude _ => "OBJC_INCLUDE_PATH"
  | Entry.CPPFlag _ => "CPPFLAGS"
  | Entry.CFlag _ => "CFLAGS"
  | Entry.CXXFlag _ => "CXXFLAGS"
  | Entry.LDFlag _ => "LDFLAGS"
  | Entry.LibraryPath _ => "LIBRARY_PATH"
  | Entry.LDLibraryPath _ => "LD_LIBRARY_PATH"
  | Entry.LDRunPath _ => "LD_RUN_PATH"
  | Entry.RanLib _ => "RANLIB"
  | Entry.CC _ => "CC"
  | Entry.CXX _ => "CXX"
  | Entry.AR _ => "AR"
  | Entry.Strip _ => "STRIP"
  | Entry.GCCExecPref _ => "GCC_EXEC_PREFIX"
  | Entry.CollectGCCOptions _ => "COLLECT_GCC_OPTIONS"
  | Entry.Lang _ => "LANG"
  | Entry.CustomScalar n _ => n
  | Entry.CustomPart n _ _ => n

/-- `Entry::separator` from `src/config.rs`: path-like variables are
colon-separated, `CustomPart` carries its own separator, everything else
(including `CustomScalar`) falls through to a single space. -/
def Entry.separator : Entry → String
  | Entry.Path _ => ":"
  | Entry.CPath _ => ":"
  | Entry.CInclude _ => ":"
  | Entry.CPlusInclude _ => ":"
  | Entry.OBJCInclude _ => ":"
  | Entry.LibraryPath _ => ":"
  | Entry.LDLibraryPath _ => ":"
  | Entry.LDRunPath _ => ":"
  | Entry.CustomPart _ _ sep => sep
  | _ => " "

/-- An environment profile (`EnvProfile` in `src/config.rs`). -/
structure EnvProfile where
  name : String
  entries : List Entry
deriving DecidableEq

/-- Per-character step of `shell_double_quote_literal` in `src/export.rs`:
backslash and double quote are escaped, every other character (including
the dollar sign and backtick) passes through unchanged. -/
def quoteChar (c : Char) : List Char :=
  if c = '\\' then ['\\', '\\']
  else if c = '"' then ['\\', '"']
  else [c]

/-- The character loop of `shell_double_quote_literal`, on character lists. -/
def quoteChars : List Char → List Char
  | [] => []
  | c :: cs => quoteChar c ++ quoteChars cs

/-- `shell_double_quote_literal` from `src/export.rs`: escape a value for
placement inside a double-quoted shell string. -/
def shell_double_quote_literal (s : String) : String :=
  ⟨quoteChars s.data⟩

/-- `export_assignment` from `src/export.rs`: render one `export VAR=...;`
statement. Literal braces in the shell parameter expansions are written as
the character escapes \x7b and \x7d. -/
def export_assignment (var_name value sep : String) (mode : OperationMode) : String :=
  let escaped_value := shell_double_quote_literal value
  match mode with
  | OperationMode.Prepend =>
      let tail := "$\x7b" ++ var_name ++ ":+" ++ sep ++ "$\x7b" ++ var_name ++ "\x7d\x7d"
      "export " ++ var_name ++ "=\"" ++ escaped_value ++ tail ++ "\";"
  | OperationMode.Append =>
      let head := "$\x7b" ++ var_name ++ ":+$\x7b" ++ var_name ++ "\x7d" ++ sep ++ "\x7d"
      "export " ++ var_name ++ "=\"" ++ head ++ escaped_value ++ "\";"
  | OperationMode.Replace =>
      "export " ++ var_name ++ "=\"" ++ escaped_value ++ "\";"

/-- `entry_value` from `src/export.rs`: the raw value an entry contributes. -/
def entry_value : Entry → String
  | Entry.Path pe => pe.path
  | Entry.CPath s => s
  | Entry.CInclude s => s
  | Entry.CPlusInclude s => s
  | Entry.OBJCInclude s => s
  | Entry.CPPFlag s => s
  | Entry.CFlag s => s
  | Entry.CXXFlag s => s
  | Entry.LDFlag s => s
  | Entry.LibraryPath s => s
  | Entry.LDLibraryPath s => s
  | Entry.LDRunPath s => s
  | Entry.RanLib s => s
  | Entry.CC s => s
  | Entry.CXX s => s
  | Entry.AR s => s
  | Entry.Strip s => s
  | Entry.GCCExecPref s => s
  | Entry.CollectGCCOptions s => s
  | Entry.Lang s => s
  | Entry.CustomScalar _ v => v
  | Entry.CustomPart _ v _ => v

/-- `generate_export_line` from `src/export.rs`: export command for a single
entry treated as the new value. -/
def generate_export_line (entry : Entry) (mode : OperationMode) : String :=
  export_assignment entry.var_name (entry_value entry) entry.separator mode

/-- Rust `Vec::join` / `slice::join` on a list of strings: the elements
concatenated with `sep` between consecutive elements. -/
def joinWith (sep : String) : List String → String
  | [] => ""
  | [x] => x
  | x :: xs => x ++ sep ++ joinWith sep xs

/-- One iteration of the grouping loop in `generate_full_export`
(`src/export.rs`): the `order` vector plus the `groups : HashMap<String,
(String, Vec<String>)>` are modelled as one insertion-ordered association
list. A new variable is appended at the end with the separator of this (its
first) entry; an already-seen variable gets the value appended to its part
list, keeping its recorded separator. -/
def insertGrouped : List (String × String × List String) → String → String → String →
    List (String × String × List String)
  | [], var, sep, v => [(var, sep, [v])]
  | g :: rest, var, sep, v =>
      if g.1 = var then (g.1, g.2.1, g.2.2 ++ [v]) :: rest
      else g :: insertGrouped rest var sep v

/-- The grouping phase of `generate_full_export`: scan the entries in order,
grouping values per variable name. -/
def groupProfile (entries : List Entry) : List (String × String × List String) :=
  entries.foldl
    (fun acc e => insertGrouped acc e.var_name e.separator (entry_value e)) []

/-- `generate_full_export` from `src/export.rs`: one export line per
variable, parts joined with the variable's separator, lines joined with
newlines. -/
def generate_full_export (profile : EnvProfile) (mode : OperationMode) : String :=
  joinWith "\n"
    ((groupProfile profile.entries).map
      (fun g => export_assignment g.1 (joinWith g.2.1 g.2.2) g.2.1 mode))

/-- Deduplicate a list of names keeping the first occurrence of each, in
first-seen order. -/
def dedupFirst (l : List String) : List String :=
  l.foldl (fun acc v => if v ∈ acc then acc else acc ++ [v]) []

/-- The distinct variable names of an entry list, in first-seen order. -/
def firstSeenVars (es : List Entry) : List String :=
  dedupFirst (es.map Entry.var_name)

/-- The separator recorded for a variable: the one of the first entry
encountered for that name (empty if the name never occurs). -/
def varSep (es : List Entry) (v : String) : String :=
  match es.find? (fun e => e.var_name == v) with
  | some e => e.separator
  | none => ""

/-- The values contributed to a variable, in stored order. -/
def varParts (es : List Entry) (v : String) : List String :=
  (es.filter (fun e => e.var_name == v)).map entry_value

/-- Declarative description of the grouping phase, per the specification:
one tuple per distinct variable in first-seen order, carrying the
first-encountered separator and the values in stored order. -/
def groupSpec (es : List Entry) : List (String × String × List String) :=
  (firstSeenVars es).map (fun v => (v, varSep es v, varParts es v))

/-- The SQLite `profiles` table created by `initialize_db` in `src/db.rs`:
rows of (name, entries). The schema declares `name TEXT NOT NULL UNIQUE`. -/
abbrev Db := List (String × List Entry)

/-- `db::rename_profile` from `src/db.rs`: it runs the single SQL statement
`UPDATE profiles SET name = ?new WHERE name = ?old` and then reports
"profile not found" when no row was updated. By the UNIQUE constraint on
`name` declared in `initialize_db`, the UPDATE aborts — changing nothing —
when a row other than the updated one already carries `new_name`. -/
def rename_profile (db : Db) (old_name new_name : String) : Except String Db :=
  if db.any (fun r => r.1 == old_name) && !(old_name == new_name)
      && db.any (fun r => r.1 == new_name) then
    Except.error "UNIQUE constraint failed: profiles.name"
  else if db.any (fun r => r.1 == old_name) then
    Except.ok (db.map (fun r => if r.1 == old_name then (new_name, r.2) else r))
  else
    Except.error ("profile not found: " ++ old_name)

/-- The slice of `AppState` (`src/tui/state.rs`) relevant to renaming: the
SQLite connection is modelled by the table contents, the in-memory profile
list as stored. The remaining fields (cursors, theme, filters, ...) do not
participate in `update_profile`. -/
structure AppState where
  db : Db
  profiles : List EnvProfile

/-- `AppState::update_profile` from `src/tui/state.rs`: rename the profile at
`index` in storage first; only on success is the in-memory name updated.
The `?` early return on a database error is modelled by `Except`, so an
error leaves the caller's state exactly as it was. -/
def AppState.update_profile (st : AppState) (index : Nat) (new_name : String) :
    Except String AppState :=
  if h : index < st.profiles.length then
    match rename_profile st.db (st.profiles.get ⟨index, h⟩).name new_name with
    | Except.error e => Except.error e
    | Except.ok db2 =>
        Except.ok ⟨db2, st.profiles.set index
          ⟨new_name, (st.profiles.get ⟨index, h⟩).entries⟩⟩
  else
    Except.ok st

lemma quoteChars_append (l₁ l₂ : List Char) :
    quoteChars (l₁ ++ l₂) = quoteChars l₁ ++ quoteChars l₂ := by
  induction l₁ with
  | nil => rfl
  | cons c cs ih => simp [quoteChars, ih]

lemma quoteChars_id (l : List Char) (h : ∀ c ∈ l, c ≠ '\\' ∧ c ≠ '"') :
    quoteChars l = l := by
  induction l with
  | nil => rfl
  | cons c cs ih =>
    obtain ⟨h1, h2⟩ := h c (by simp)
    simp [quoteChars, quoteChar, h1, h2, ih fun x hx => h x (by simp [hx])]

lemma ends_semi (X : String) : ((X ++ "\";").data).getLast? = some ';' := by
  have h : (X ++ "\";").data = (X.data ++ ['"']) ++ [';'] := by
    show X.data ++ ['"', ';'] = (X.data ++ ['"']) ++ [';']
    simp
  rw [h, List.getLast?_concat]

lemma mem_dedupFirst_aux (l acc : List String) (x : String) :
    x ∈ l.foldl (fun acc v => if v ∈ acc then acc else acc ++ [v]) acc ↔
      x ∈ acc ∨ x ∈ l := by
  induction l generalizing acc with
  | nil => simp
  | cons v l ih =>
    simp only [List.foldl_cons]
    rw [ih]
    by_cases hv : v ∈ acc
    · simp only [if_pos hv, List.mem_cons]
      constructor
      · tauto
      · rintro (h | h | h)
        · exact Or.inl h
        · exact Or.inl (h ▸ hv)
        · exact Or.inr h
    · simp only [if_neg hv, List.mem_append, List.mem_singleton, List.mem_cons]
      tauto

lemma mem_firstSeenVars (es : List Entry) (x : String) :
    x ∈ firstSeenVars es ↔ ∃ e ∈ es, Entry.var_name e = x := by
  rw [firstSeenVars, dedupFirst, mem_dedupFirst_aux]
  simp [List.mem_map]

lemma nodup_dedupFirst_aux (l : List String) :
    ∀ acc : List String, acc.Nodup →
      (l.foldl (fun acc v => if v ∈ acc then acc else acc ++ [v]) acc).Nodup := by
  induction l with
  | nil => intro acc h; exact h
  | cons v l ih =>
    intro acc h
    simp only [List.foldl_cons]
    by_cases hv : v ∈ acc
    · rw [if_pos hv]; exact ih acc h
    · rw [if_neg hv]
      exact ih _ (by simp [List.nodup_append, h, hv])

lemma nodup_firstSeenVars (es : List Entry) : (firstSeenVars es).Nodup :=
  nodup_dedupFirst_aux _ [] (by simp)

lemma groupProfile_concat (es : List Entry) (e : Entry) :
    groupProfile (es ++ [e]) =
      insertGrouped (groupProfile es) e.var_name e.separator (entry_value e) := by
  simp [groupProfile]

lemma firstSeenVars_concat (es : List Entry) (e : Entry) :
    firstSeenVars (es ++ [e]) =
      if e.var_name ∈ firstSeenVars es then firstSeenVars es
      else firstSeenVars es ++ [e.var_name] := by
  simp [firstSeenVars, dedupFirst]

lemma find?_append_singleton {α : Type} (p : α → Bool) (es : List α) (e : α) :
    (es ++ [e]).find? p =
      match es.find? p with
      | some x => some x
      | none => if p e then some e else none := by
  induction es with
  | nil => cases hpe : p e <;> simp [List.find?, hpe]
  | cons a es ih => cases hpa : p a <;> simp [List.find?, hpa, ih]

lemma varSep_concat_of_found (es : List Entry) (e : Entry) (v : String)
    (h : ∃ x ∈ es, Entry.var_name x = v) :
    varSep (es ++ [e]) v = varSep es v := by
  obtain ⟨x, hx, hxv⟩ := h
  rw [varSep, varSep, find?_append_singleton]
  cases hf : es.find? (fun x => x.var_name == v) with
  | some y => rfl
  | none =>
    exact absurd (List.find?_eq_none.1 hf x hx) (by simp [hxv])

lemma varSep_concat_self_of_new (es : List Entry) (e : Entry)
    (h : ∀ x ∈ es, Entry.var_name x ≠ e.var_name) :
    varSep (es ++ [e]) e.var_name = e.separator := by
  have hf : es.find? (fun x => x.var_name == e.var_name) = none :=
    List.find?_eq_none.2 (fun x hx => by simp [h x hx])
  rw [varSep, find?_append_singleton, hf]
  simp

lemma varParts_concat (es : List Entry) (e : Entry) (v : String) :
    varParts (es ++ [e]) v =
      varParts es v ++ (if e.var_name = v then [entry_value e] else []) := by
  rw [varParts, varParts, List.filter_append, List.map_append]
  congr 1
  by_cases h : e.var_name = v
  · simp [List.filter, h]
  · have hb : (Entry.var_name e == v) = false := by simp [h]
    simp [List.filter, h, hb]

lemma insertGrouped_of_not_mem (acc : List (String × String × List String))
    (var sep v : String) (h : ∀ g ∈ acc, g.1 ≠ var) :
    insertGrouped acc var sep v = acc ++ [(var, sep, [v])] := by
  induction acc with
  | nil => rfl
  | cons g rest ih =>
    have h1 : g.1 ≠ var := h g (by simp)
    simp only [insertGrouped, if_neg h1, List.cons_append, List.cons.injEq, true_and]
    exact ih fun x hx => h x (by simp [hx])

lemma insertGrouped_map_update (vs : List String) (S : String → String)
    (P : String → List String) (k sep v : String) (hnd : vs.Nodup) (hk : k ∈ vs) :
    insertGrouped (vs.map fun w => (w, S w, P w)) k sep v =
      vs.map fun w => (w, S w, if w = k then P w ++ [v] else P w) := by
  induction vs with
  | nil => simp at hk
  | cons w vs ih =>
    rcases List.nodup_cons.1 hnd with ⟨hw, hnd'⟩
    by_cases hwk : w = k
    · subst hwk
      simp only [List.map_cons, insertGrouped, if_pos rfl, if_true]
      rw [List.map_congr_left]
      intro a ha
      have hak : a ≠ w := fun hc => hw (hc ▸ ha)
      simp [hak]
    · have hk' : k ∈ vs := by
        rcases List.mem_cons.1 hk with h | h
        · exact absurd h.symm hwk
        · exact h
      simp only [List.map_cons, insertGrouped, if_neg hwk]
      rw [ih hnd' hk']

/-- The imperative grouping loop of `generate_full_export` computes exactly
the declarative per-variable grouping: one tuple per distinct variable name
in first-seen order, carrying the separator of the first entry for that
name and all values in stored order. -/
theorem groupProfile_eq_groupSpec (es : List Entry) : groupProfile es = groupSpec es := by
  induction es using List.reverseRecOn with
  | nil => rfl
  | append_singleton es e ih =>
    rw [groupProfile_concat, ih]
    by_cases hmem : ∃ x ∈ es, Entry.var_name x = Entry.var_name e
    · have hv : e.var_name ∈ firstSeenVars es := (mem_firstSeenVars es _).2 hmem
      rw [groupSpec, insertGrouped_map_update _ _ _ _ _ _ (nodup_firstSeenVars es) hv]
      rw [groupSpec, firstSeenVars_concat, if_pos hv]
      apply List.map_congr_left
      intro w hw
      have hwseen : ∃ x ∈ es, Entry.var_name x = w := (mem_firstSeenVars es w).1 hw
      have hsep : varSep (es ++ [e]) w = varSep es w := varSep_concat_of_found es e w hwseen
      rw [hsep, varParts_concat]
      by_cases hwe : w = e.var_name
      · simp [hwe]
      · have : ¬ (Entry.var_name e = w) := fun hc => hwe hc.symm
        simp [hwe, this]
    · push_neg at hmem
      have hv : e.var_name ∉ firstSeenVars es := fun hc =>
        (by obtain ⟨x, hx, hxv⟩ := (mem_firstSeenVars es _).1 hc; exact hmem x hx hxv)
      have hkeys : ∀ g ∈ groupSpec es, g.1 ≠ e.var_name := by
        intro g hg
        obtain ⟨w, hw, hwg⟩ := List.mem_map.1 hg
        intro hc
        exact hv (by rw [← hc, ← hwg]; exact hw)
      rw [insertGrouped_of_not_mem _ _ _ _ hkeys]
      rw [groupSpec, groupSpec, firstSeenVars_concat, if_neg hv, List.map_append]
      congr 1
      · apply List.map_congr_left
        intro w hw
        have hwseen : ∃ x ∈ es, Entry.var_name x = w := (mem_firstSeenVars es w).1 hw
        have hwe : ¬ (Entry.var_name e = w) := by
          intro hc
          obtain ⟨x, hx, hxv⟩ := hwseen
          exact hmem x hx (by rw [hxv, ← hc])
        rw [varSep_concat_of_found es e w hwseen, varParts_concat]
        simp [hwe]
      · have hempty : varParts es e.var_name = [] := by
          rw [varParts, List.filter_eq_nil_iff.2 (fun x hx => by simp [hmem x hx]), List.map_nil]
        rw [List.map_singleton, varSep_concat_self_of_new es e hmem, varParts_concat]
        simp [hempty]

lemma set_get_self {α : Type} (l : List α) : ∀ (i : Nat) (h : i < l.length),
    l.set i (l.get ⟨i, h⟩) = l := by
  induction l with
  | nil => intro i h; simp at h
  | cons a l ih =>
    intro i h
    cases i with
    | zero => rfl
    | succ i =>
      simp only [List.set, List.get]
      rw [ih]

lemma rename_profile_self (db : Db) (name : String)
    (h : db.any (fun r => r.1 == name) = true) :
    rename_profile db name name = Except.ok db := by
  rw [rename_profile]
  simp only [beq_self_eq_true, Bool.not_true, Bool.and_false, Bool.false_and,
    Bool.false_eq_true, if_false, h, if_true]
  congr 1
  conv_rhs => rw [← List.map_id db]
  apply List.map_congr_left
  intro r _
  by_cases hr : r.1 = name
  · have hb : (r.1 == name) = true := by simp [hr]
    simp only [hb, if_true, id_eq]
    rw [← hr]
  · have hb : (r.1 == name) = false := by simp [hr]
    simp [hb]

lemma rename_profile_conflict (db : Db) (old_name new_name : String)
    (hne : old_name ≠ new_name)
    (hold : db.any (fun r => r.1 == old_name) = true)
    (hnew : db.any (fun r => r.1 == new_name) = true) :
    rename_profile db old_name new_name =
      Except.error "UNIQUE constraint failed: profiles.name" := by
  rw [rename_profile]
  have hb : (old_name == new_name) = false := by simp [hne]
  simp [hold, hnew, hb]

lemma update_profile_self (st : AppState) (i : Nat) (h : i < st.profiles.length)
    (hdb : st.db.any (fun r => r.1 == (st.profiles.get ⟨i, h⟩).name) = true) :
    st.update_profile i (st.profiles.get ⟨i, h⟩).name = Except.ok st := by
  rw [AppState.update_profile, dif_pos h, rename_profile_self _ _ hdb]
  show Except.ok _ = Except.ok st
  congr 1
  show (⟨st.db, st.profiles.set i (st.profiles.get ⟨i, h⟩)⟩ : AppState) = st
  rw [set_get_self]

lemma update_profile_conflict (st : AppState) (i : Nat) (h : i < st.profiles.length)
    (new_name : String) (hne : (st.profiles.get ⟨i, h⟩).name ≠ new_name)
    (hold : st.db.any (fun r => r.1 == (st.profiles.get ⟨i, h⟩).name) = true)
    (hnew : st.db.any (fun r => r.1 == new_name) = true) :
    st.update_profile i new_name =
      Except.error "UNIQUE constraint failed: profiles.name" := by
  rw [AppState.update_profile, dif_pos h,
    rename_profile_conflict _ _ _ hne hold hnew]

/-- C1: in Prepend mode, `export_assignment` produces exactly
`export V="<escaped v>${V:+<sep>${V}}";` where the value is quoted and the
separator inside the parameter expansion is the raw, unescaped separator;
in particular a profile with two PATH parts `/a` and `/b` (separator `:`)
yields the single statement `export PATH="/a:/b${PATH:+:${PATH}}";`. -/
theorem prepend_statement_shape :
    (∀ (V sep v : String),
        export_assignment V v sep OperationMode.Prepend =
          "export " ++ V ++ "=\"" ++ shell_double_quote_literal v ++
            "$\x7b" ++ V ++ ":+" ++ sep ++ "$\x7b" ++ V ++ "\x7d\x7d" ++ "\";")
    ∧ generate_full_export
        ⟨"p", [ Entry.Path ⟨"/a", "t", "1"⟩, Entry.Path ⟨"/b", "t", "2"⟩]⟩
        OperationMode.Prepend
      = "export PATH=\"/a:/b$\x7bPATH:+:$\x7bPATH\x7d\x7d\";" := by
  constructor
  · intro V sep v
    apply String.ext
    simp [export_assignment, String.data_append, List.append_assoc]
  · decide

/-- C2: in Append mode, `export_assignment` produces exactly
`export V="${V:+${V}<sep>}<escaped v>";` — the existing value (only if
non-empty) first, then the raw separator, then the quoted new value; on
PATH parts `/a`, `/b` this is `export PATH="${PATH:+${PATH}:}/a:/b";`. -/
theorem append_statement_shape :
    (∀ (V sep v : String),
        export_assignment V v sep OperationMode.Append =
          "export " ++ V ++ "=\"" ++ "$\x7b" ++ V ++ ":+$\x7b" ++ V ++ "\x7d" ++
            sep ++ "\x7d" ++ shell_double_quote_literal v ++ "\";")
    ∧ generate_full_export
        ⟨"p", [ Entry.Path ⟨"/a", "t", "1"⟩, Entry.Path ⟨"/b", "t", "2"⟩]⟩
        OperationMode.Append
      = "export PATH=\"$\x7bPATH:+$\x7bPATH\x7d:\x7d/a:/b\";" := by
  constructor
  · intro V sep v
    apply String.ext
    simp [export_assignment, String.data_append, List.append_assoc]
  · decide

/-- C3: the quoting function maps backslash to `\\`, double quote to `\"`,
leaves every other character (including the dollar sign) unchanged, is a
homomorphism for concatenation (so it preserves character order and keeps
any `$VAR` / `${VAR}` substring byte-for-byte intact), and maps the empty
string to the empty fragment. -/
theorem quoting_escapes_only_backslash_and_quote :
    shell_double_quote_literal "\\" = "\\\\"
    ∧ shell_double_quote_literal "\"" = "\\\""
    ∧ (∀ c : Char, c ≠ '\\' → c ≠ '"' → quoteChar c = [c])
    ∧ (∀ a b : String, shell_double_quote_literal (a ++ b) =
        shell_double_quote_literal a ++ shell_double_quote_literal b)
    ∧ (∀ m : String, (∀ c ∈ m.data, c ≠ '\\' ∧ c ≠ '"') →
        shell_double_quote_literal m = m)
    ∧ shell_double_quote_literal "" = "" := by
  refine ⟨by decide, by decide, ?_, ?_, ?_, rfl⟩
  · intro c h1 h2
    simp [quoteChar, h1, h2]
  · intro a b
    show (⟨quoteChars (a.data ++ b.data)⟩ : String) = ⟨quoteChars a.data ++ quoteChars b.data⟩
    rw [quoteChars_append]
  · intro m h
    show (⟨quoteChars m.data⟩ : String) = m
    rw [quoteChars_id m.data h]

/-- Witness for C3: a `${VAR}`-shaped value passes through the quoting
function byte-for-byte intact. -/
theorem quoting_escapes_only_backslash_and_quote_witness :
    shell_double_quote_literal "$\x7bHOME\x7d" = "$\x7bHOME\x7d" :=
  quoting_escapes_only_backslash_and_quote.2.2.2.2.1 "$\x7bHOME\x7d" (by decide)

/-- C4: full-profile export emits exactly one tuple (and one statement) per
distinct variable name, in the order each name is first seen; the separator
is the one of the first entry for that name, and the joined value is the
entries' values in stored order joined with that separator. -/
theorem full_export_groups_by_first_seen_variable
    (p : EnvProfile) (mode : OperationMode) :
    groupProfile p.entries =
      (firstSeenVars p.entries).map
        (fun v => (v, varSep p.entries v, varParts p.entries v))
    ∧ generate_full_export p mode =
        joinWith "\n" ((firstSeenVars p.entries).map
          (fun v => export_assignment v
            (joinWith (varSep p.entries v) (varParts p.entries v))
            (varSep p.entries v) mode)) := by
  have hg := groupProfile_eq_groupSpec p.entries
  refine ⟨hg, ?_⟩
  rw [generate_full_export, hg, groupSpec, List.map_map]
  rfl

/-- C5: when several entries target the same variable — including
Scalar-kind variables such as `CC` or a repeated `CustomScalar` — the
grouped part list keeps every entry's value (nothing is dropped or
truncated to the last entry) and they are joined with the recorded
separator. -/
theorem scalar_vars_multiple_entries_all_joined :
    (∀ (es : List Entry) (v sep : String) (ps : List String),
        (v, sep, ps) ∈ groupProfile es →
          ps = varParts es v ∧
          ps.length = (es.filter (fun e => Entry.var_name e == v)).length)
    ∧ generate_full_export ⟨"p", [ Entry.CC "gcc", Entry.CC "clang"]⟩
        OperationMode.Replace = "export CC=\"gcc clang\";"
    ∧ generate_full_export
        ⟨"p", [ Entry.CustomScalar "FOO" "a", Entry.CustomScalar "FOO" "b"]⟩
        OperationMode.Replace = "export FOO=\"a b\";" := by
  refine ⟨?_, by decide, by decide⟩
  intro es v sep ps hmem
  rw [groupProfile_eq_groupSpec] at hmem
  obtain ⟨w, hw, hwg⟩ := List.mem_map.1 hmem
  have hw1 : w = v := congrArg Prod.fst hwg
  have hps : varParts es w = ps := congrArg (fun t => t.2.2) hwg
  subst hw1
  constructor
  · exact hps.symm
  · rw [← hps, varParts, List.length_map]

/-- Witness for C5: a profile with two `CC` entries groups both values. -/
theorem scalar_vars_multiple_entries_all_joined_witness :
    ["gcc", "clang"] = varParts [ Entry.CC "gcc", Entry.CC "clang"] "CC" ∧
    (["gcc", "clang"] : List String).length =
      (List.filter (fun e => Entry.var_name e == "CC")
        [ Entry.CC "gcc", Entry.CC "clang"]).length :=
  scalar_vars_multiple_entries_all_joined.1
    [ Entry.CC "gcc", Entry.CC "clang"] "CC" " " ["gcc", "clang"] (by decide)

/-- C6: a profile with no entries produces the empty statement sequence, and
a variable occurring in none of the entries gets no output tuple at all
(absence, not an empty assignment). -/
theorem absent_variable_yields_no_statement :
    (∀ (pname : String) (mode : OperationMode),
        generate_full_export ⟨pname, []⟩ mode = "")
    ∧ (∀ (p : EnvProfile) (v : String),
        (∀ e ∈ p.entries, Entry.var_name e ≠ v) →
          ∀ g ∈ groupProfile p.entries, g.1 ≠ v) := by
  constructor
  · intro pname mode
    rfl
  · intro p v hnone g hg
    rw [groupProfile_eq_groupSpec] at hg
    obtain ⟨w, hw, hwg⟩ := List.mem_map.1 hg
    obtain ⟨x, hx, hxv⟩ := (mem_firstSeenVars _ _).1 hw
    have hw1 : w = g.1 := congrArg Prod.fst hwg
    intro hc
    exact hnone x hx (by rw [hxv, hw1, hc])

/-- Witness for C6: a profile holding only a `CC` entry produces no tuple
whose variable is `PATH`. -/
theorem absent_variable_yields_no_statement_witness :
    ("CC", " ", ["x"]).1 ≠ "PATH" :=
  absent_variable_yields_no_statement.2 ⟨"p", [ Entry.CC "x"]⟩ "PATH"
    (by decide) ("CC", " ", ["x"]) (by decide)

/-- C7: renaming a profile to its own current name succeeds and leaves the
stored table (and the in-memory state) unchanged; renaming to a name held
by a different stored profile fails with the UNIQUE-constraint
(rename-conflict) error, and — because the error propagates before any
state is produced — storage and the in-memory profile list are unchanged:
no partial rename and no silent overwrite. -/
theorem rename_profile_semantics :
    (∀ (db : Db) (name : String), db.any (fun r => r.1 == name) = true →
        rename_profile db name name = Except.ok db)
    ∧ (∀ (db : Db) (old_name new_name : String), old_name ≠ new_name →
        db.any (fun r => r.1 == old_name) = true →
        db.any (fun r => r.1 == new_name) = true →
        rename_profile db old_name new_name =
          Except.error "UNIQUE constraint failed: profiles.name")
    ∧ (∀ (st : AppState) (i : Nat) (h : i < st.profiles.length),
        st.db.any (fun r => r.1 == (st.profiles.get ⟨i, h⟩).name) = true →
        st.update_profile i (st.profiles.get ⟨i, h⟩).name = Except.ok st)
    ∧ (∀ (st : AppState) (i : Nat) (h : i < st.profiles.length) (new_name : String),
        (st.profiles.get ⟨i, h⟩).name ≠ new_name →
        st.db.any (fun r => r.1 == (st.profiles.get ⟨i, h⟩).name) = true →
        st.db.any (fun r => r.1 == new_name) = true →
        st.update_profile i new_name =
          Except.error "UNIQUE constraint failed: profiles.name") :=
  ⟨rename_profile_self, rename_profile_conflict,
    update_profile_self, update_profile_conflict⟩

/-- Witness for C7: with stored profiles `a` and `b`, renaming `a` to `b`
fails with the UNIQUE-constraint error. -/
theorem rename_profile_semantics_witness :
    rename_profile [("a", []), ("b", [])] "a" "b" =
      Except.error "UNIQUE constraint failed: profiles.name" :=
  rename_profile_semantics.2.1 [("a", []), ("b", [])] "a" "b"
    (by decide) (by decide) (by decide)

/-- C8: rendering is a total function — `generate_full_export` returns a
string for every profile and mode — and an entry with an empty declared
separator degenerates to concatenation with an empty separator rather than
failing. -/
theorem rendering_total :
    (∀ (p : EnvProfile) (mode : OperationMode),
        ∃ s : String, generate_full_export p mode = s)
    ∧ (∀ (pname vname v1 v2 : String) (mode : OperationMode),
        generate_full_export
            ⟨pname, [ Entry.CustomPart vname v1 "", Entry.CustomPart vname v2 ""]⟩ mode
          = export_assignment vname (v1 ++ v2) "" mode) := by
  refine ⟨fun p mode => ⟨_, rfl⟩, ?_⟩
  intro pname vname v1 v2 mode
  simp [generate_full_export, groupProfile, insertGrouped, joinWith,
    Entry.var_name, Entry.separator, entry_value]

/-- C9: every rendered statement, for every variable name, value, separator
and each of the three modes, ends with the character `;`. -/
theorem every_statement_ends_with_semicolon
    (V v sep : String) (mode : OperationMode) :
    (export_assignment V v sep mode).data.getLast? = some ';' := by
  cases mode <;> exact ends_semi _

/-- C10: on a profile whose entry list is exactly `[e]`, the grouped
full-profile export and the direct single-entry export agree, for every
mode. -/
theorem singleton_profile_export_refines_single_line
    (pname : String) (e : Entry) (mode : OperationMode) :
    generate_full_export ⟨pname, [e]⟩ mode = generate_export_line e mode := rfl

end Bath
